import Mathlib

/-!
Verification of the Meshtastic-Zmodem dual-layer transfer engine.

This file gives a shallow embedding, in Lean, of the pure computational
content of the repository's two layers:

* `src/src/utility/ZModemEngine.cpp` — the ZModem protocol engine
  (CRC-16/XMODEM, data-subpacket emission, HEX header reading, the
  receive-data loop, `abort`, and the timeout gate of `loop`), and
* `src/src/AkitaMeshZmodem.cpp` — the `MeshtasticZModemStream` adapter
  that frames the ZModem byte stream into mesh datagrams
  (`sendPacket`, the packet-processing part of `available`, `reset`).

Machine integers are modelled as `Nat` with explicit `% 2^16` / `% 2^32`
truncation where the C++ code stores into `uint16_t` / `unsigned long`.
Byte buffers are `List Nat` whose elements are below 256 at use sites.
Streams with side effects are modelled by explicit state passing: input
is a `List Nat` that the function consumes, output is a `List Nat` the
function produces.
-/

/-! ## Protocol constants (ZModemEngine.h) -/

def ZPAD : Nat := 0x2A

def ZDLE : Nat := 0x18

def ZBIN : Nat := 0x41

def ZHEX : Nat := 0x42

def ZCAN : Nat := 16

def ZCRCG : Nat := 0x47

def ZCRCE : Nat := 0x45

/-! ## CRC-16 (ZModemEngine.cpp, `_updcrc`)

The C++ loop body is
`if (crc & 0x8000) crc = (crc << 1) ^ 0x1021; else crc = crc << 1;`
on a `uint16_t`, i.e. every assignment truncates to 16 bits. -/

/-- One iteration of the `for (count = 0; count < 8; ...)` loop of
`ZModemEngine::_updcrc`; the second argument is the (ignored) loop
counter. -/
def crcStep (cr : Nat) (_ : Nat) : Nat :=
  if cr &&& 0x8000 ≠ 0 then ((cr <<< 1) ^^^ 0x1021) % 65536
  else (cr <<< 1) % 65536

/-- `ZModemEngine::_updcrc(c, crc)`: xor `c << 8` into `crc` (stored back
into a `uint16_t`), then run the shift-and-xor loop eight times. -/
def updcrc (c crc : Nat) : Nat :=
  (List.range 8).foldl crcStep ((crc ^^^ (c <<< 8)) % 65536)

/-- CRC of a byte string: fold `_updcrc` from initial value 0, exactly as
the call sites in `_sendHexHeader`, `_sendBinaryHeader` and
`_sendDataSubpacket` do. -/
def crc16 (l : List Nat) : Nat :=
  l.foldl (fun cr b => updcrc b cr) 0

/-- One iteration of the CRC loop as the specification words it:
"crc = (crc << 1) xor 0x1021 when the top bit is set and crc = crc << 1
otherwise, all in 16-bit arithmetic". -/
def crcStepSpec (cr : Nat) : Nat :=
  if Nat.testBit cr 15 then ((cr * 2) % 65536) ^^^ 0x1021
  else (cr * 2) % 65536

/-- `updcrc` as the specification words it: "xors b shifted left 8 into
crc, then iterates 8 times". -/
def updcrcSpec (b crc : Nat) : Nat :=
  crcStepSpec^[8] ((crc ^^^ (b * 256)) % 65536)

/-- CRC of a byte string as the specification words it: "obtained by
folding this from initial value 0". -/
def crc16Spec (l : List Nat) : Nat :=
  l.foldl (fun cr b => updcrcSpec b cr) 0

/-! ## Data subpacket emission (ZModemEngine.cpp, `_sendDataSubpacket`) -/

/-- The escape test of `_sendDataSubpacket`:
`data[i] == ZDLE || data[i] == 0x10 || 0x11 || 0x13 || 0x0d || 0x8d`. -/
def escapeNeeded (b : Nat) : Bool :=
  b == ZDLE || b == 0x10 || b == 0x11 || b == 0x13 || b == 0x0D || b == 0x8D

/-- One iteration of the emission loop of `_sendDataSubpacket`: the
accumulator carries (bytes written so far, running CRC).  An escaped
byte is written as `ZDLE, byte ^ 0x40`; the CRC is fed the original
byte in both branches. -/
def subpacketStep (acc : List Nat × Nat) (b : Nat) : List Nat × Nat :=
  if escapeNeeded b then (acc.1 ++ [ZDLE, b ^^^ 0x40], updcrc b acc.2)
  else (acc.1 ++ [b], updcrc b acc.2)

/-- `ZModemEngine::_sendDataSubpacket(data, len, endFrame)`: the byte
sequence written to the IO stream.  After the escaped data the code
writes `ZDLE`, the terminator (`ZCRCE` if `endFrame` else `ZCRCG`,
which is also fed to the CRC), then `(crc >> 8) & 0xFF` and
`crc & 0xFF`. -/
def sendDataSubpacket (data : List Nat) (endFrame : Bool) : List Nat :=
  let r := data.foldl subpacketStep ([], 0)
  let term := if endFrame then ZCRCE else ZCRCG
  let crc := updcrc term r.2
  r.1 ++ [ZDLE, term, (crc >>> 8) &&& 0xFF, crc &&& 0xFF]

/-- The escape codec as the claim words it: each byte of the escape set
becomes the pair `(ZDLE, byte xor 0x40)`, every other byte is emitted
unchanged. -/
def escByteSpec (b : Nat) : List Nat :=
  if b = ZDLE ∨ b = 0x10 ∨ b = 0x11 ∨ b = 0x13 ∨ b = 0x0D ∨ b = 0x8D then
    [ZDLE, b ^^^ 0x40]
  else [b]

/-- The emitted data subpacket as the claim words it: escaped data, then
`ZDLE` and the terminator, then the CRC-16 high byte and low byte, the
CRC taken over the original data bytes plus the terminator byte. -/
def subpacketSpec (data : List Nat) (endFrame : Bool) : List Nat :=
  let term := if endFrame then ZCRCE else ZCRCG
  let crc := crc16 (data ++ [term])
  data.flatMap escByteSpec ++ [ZDLE, term] ++ [crc / 256, crc % 256]


/-! ## HEX header reading (ZModemEngine.cpp, `_readHexHeader`)

The C++ code parses two-character hex strings with `strtoul(tmp, NULL,
16)` where `tmp` is a NUL-terminated 2-byte buffer.  `hexVal`/`pairVal`
model that: a non-digit first character yields 0, a non-digit second
character stops the parse after the first digit. -/

/-- Value of one hex character (digits, upper- and lower-case letters),
`none` when the character is not a hex digit. -/
def hexVal (c : Nat) : Option Nat :=
  if 48 ≤ c ∧ c ≤ 57 then some (c - 48)
  else if 65 ≤ c ∧ c ≤ 70 then some (c - 55)
  else if 97 ≤ c ∧ c ≤ 102 then some (c - 87)
  else none

/-- `strtoul` of a two-character buffer in base 16. -/
def pairVal (c1 c2 : Nat) : Nat :=
  match hexVal c1 with
  | none => 0
  | some a =>
    match hexVal c2 with
    | none => a
    | some b => 16 * a + b

/-- `ZModemEngine::_readHexHeader`: returns `none` when fewer than 12
bytes are buffered, or when the first four bytes are not
`ZPAD ZPAD ZDLE ZHEX` (42, 42, 24, 66), or when the remaining reads come
up short.  On success it decodes the type from two hex characters and
each of the four flag bytes from two hex characters, then reads and
discards four CRC characters and two trailing bytes (CR/LF), returning
the decoded header and the unconsumed remainder of the stream.  The
C++ comment reads "Skip CRC (4 hex chars) and CR/LF (2 chars) for
simplified implementation": the CRC characters are never compared with
anything. -/
def readHexHeader (s : List Nat) : Option ((Nat × List Nat) × List Nat) :=
  if s.length < 12 then none
  else
    match s with
    | 42 :: 42 :: 24 :: 66 :: t1 :: t2 :: f1 :: f2 :: f3 :: f4 :: f5 :: f6 :: f7 :: f8
        :: _c1 :: _c2 :: _c3 :: _c4 :: _x1 :: _x2 :: rest =>
      some ((pairVal t1 t2,
        [pairVal f1 f2, pairVal f3 f4, pairVal f5 f6, pairVal f7 f8]), rest)
    | _ => none

/-! ## Receiver data loop (ZModemEngine.cpp, `_handleReceiverLoop`,
`RSTATE_READ_ZDATA` branch)

The branch is
`while (_io->available()) { int byte = _io->read();
 if (byte != -1) { _file->write((uint8_t)byte); _bytesTransferred++; } }`:
every buffered byte is written to the file verbatim and counted.  No
subpacket parsing, no ZDLE un-escaping and no CRC check happens here. -/

/-- Effect of the `RSTATE_READ_ZDATA` branch on (file contents,
`_bytesTransferred`) when `input` is the full buffered stream content. -/
def handleReadZdata (input : List Nat) (file : List Nat) (bytesTransferred : Nat) :
    List Nat × Nat :=
  input.foldl (fun acc b => (acc.1 ++ [b], acc.2 + 1)) (file, bytesTransferred)

/-! ## Engine lifecycle (ZModemEngine.cpp, `abort` and `loop`) -/

/-- `ZModemEngine::State` (ZModemEngine.h). -/
inductive ZState where
  | idle
  | sendZrqinit
  | awaitZrinit
  | sendZfile
  | awaitZrpos
  | sendZdata
  | sendZeof
  | awaitZfin
  | sendZfin
  | complete
  | error
deriving DecidableEq

/-- The eight-byte cancel sequence written by `ZModemEngine::abort`:
`{ZDLE, ZCAN, ZDLE, ZCAN, ZDLE, ZCAN, ZDLE, ZCAN}`. -/
def canSeq : List Nat := [ZDLE, ZCAN, ZDLE, ZCAN, ZDLE, ZCAN, ZDLE, ZCAN]

/-- `ZModemEngine::abort` on (state, cumulative output stream): with an
IO stream attached it unconditionally writes the eight-byte cancel
sequence and sets `_state = STATE_ERROR`.  There is no guard on the
current state. -/
def abortEngine (e : ZState × List Nat) : ZState × List Nat :=
  (ZState.error, e.2 ++ canSeq)

/-- The fields of `ZModemEngine` that the timeout gate of `loop` reads:
`_state`, `_lastActivity` and `_timeoutMs` (times are `millis()` values,
i.e. `unsigned long`). -/
structure EngineCore where
  state : ZState
  lastActivity : Nat
  timeoutMs : Nat
deriving DecidableEq

/-- Return value mapping of `ZModemEngine::loop`:
1 for `STATE_COMPLETE`, -1 for `STATE_ERROR`, 0 otherwise. -/
def loopRet (s : ZState) : Int :=
  if s = ZState.complete then 1 else if s = ZState.error then -1 else 0

/-- `ZModemEngine::loop` at time `now`: terminal states return at once;
otherwise, if `millis() - _lastActivity > _timeoutMs` (32-bit unsigned
subtraction), the state becomes `STATE_ERROR` and -1 is returned; only
otherwise does the sender/receiver handler run.  The handler bodies
perform stream IO, so they enter the model as an arbitrary function
`handler`; the timeout gate runs before any handler is consulted. -/
def engineLoop (handler : EngineCore → EngineCore) (now : Nat) (e : EngineCore) :
    EngineCore × Int :=
  if e.state = ZState.idle ∨ e.state = ZState.complete ∨ e.state = ZState.error then
    (e, loopRet e.state)
  else if (now - e.lastActivity) % 4294967296 > e.timeoutMs then
    ({ e with state := ZState.error }, -1)
  else
    let e2 := handler e
    (e2, loopRet e2.state)

/-! ## Mesh stream adapter (AkitaMeshZmodem.cpp, `MeshtasticZModemStream`) -/

/-- `AKZ_PACKET_IDENTIFIER` (AkitaMeshZmodemConfig.h). -/
def AKZ_PACKET_IDENTIFIER : Nat := 0xFF

/-- `AKZ_STREAM_RX_BUFFER_SIZE` (AkitaMeshZmodemConfig.h): the size of
`_rxBuffer`, which `available()` compares `_rxBufferSize` against. -/
def AKZ_STREAM_RX_BUFFER_SIZE : Nat := 256

/-- Receive-side state of `MeshtasticZModemStream`: `_rxBuffer` (its
valid bytes, so the list length is `_rxBufferSize`), `_rxBufferIndex`
and `_expectedPacketId` (a `uint16_t`). -/
structure RxState where
  rxBuffer : List Nat
  rxBufferIndex : Nat
  expectedPacketId : Nat
deriving DecidableEq

/-- Big-endian 16-bit sequence field of a framed payload:
`(payload[1] << 8) | payload[2]`. -/
def seqOf : List Nat → Nat
  | _ :: p1 :: p2 :: _ => p1 * 256 + p2
  | _ => 0

/-- `MeshtasticZModemStream::available()` with one mesh packet carrying
`payload` pending, returning (new state, return value).  Mirrors the
source: data already buffered is reported without IO; a payload shorter
than 3 bytes is dropped; a wrong identifier byte is ignored; an
in-sequence frame whose data portion exceeds the rx buffer is discarded
with `_rxBufferSize = 0` (the read index is not touched and the
expected id not advanced); an in-sequence fitting frame is copied in,
the read index reset and `_expectedPacketId` incremented (16-bit); a
smaller sequence (duplicate) is ignored; a larger sequence (gap) clears
`_rxBufferSize` and `_rxBufferIndex`.  (`_rxBufferSize` is a `uint16_t`
holding `payloadLen - 3`; mesh payloads are bounded by the radio MTU of
about 237 bytes, far below 2^16, so that store is modelled as exact.) -/
def processPacket (ident : Nat) (st : RxState) (payload : List Nat) : RxState × Nat :=
  if st.rxBufferIndex < st.rxBuffer.length then
    (st, st.rxBuffer.length - st.rxBufferIndex)
  else
    match payload with
    | p0 :: p1 :: p2 :: data =>
      if p0 = ident then
        if p1 * 256 + p2 = st.expectedPacketId then
          if data.length > AKZ_STREAM_RX_BUFFER_SIZE then
            ({ st with rxBuffer := [] }, 0)
          else
            ({ rxBuffer := data, rxBufferIndex := 0,
               expectedPacketId := (st.expectedPacketId + 1) % 65536 }, data.length)
        else if p1 * 256 + p2 < st.expectedPacketId then
          (st, 0)
        else
          ({ st with rxBuffer := [], rxBufferIndex := 0 }, 0)
      else (st, 0)
    | _ => (st, 0)

/-- Transmit-side state of `MeshtasticZModemStream`: `_txBuffer` (its
first `_txBufferIndex` bytes, so the list length is `_txBufferIndex`)
and `_sentPacketId` (a `uint16_t`). -/
structure StreamTx where
  txBuffer : List Nat
  sentPacketId : Nat
deriving DecidableEq

/-- `MeshtasticZModemStream::sendPacket()` with the mesh connected and
reporting `ok`: returns (new state, return value, packet handed to the
mesh).  Mirrors the source: nothing buffered returns success without a
packet; a buffer that with its 3-byte header would exceed
`_maxPacketSize` is truncated to `_maxPacketSize - 3` bytes before the
packet is built; the packet is identifier, id high byte, id low byte,
then the buffered data; on success the id is incremented (16-bit) and
the buffer index reset; on failure neither happens. -/
def sendPacket (maxP ident : Nat) (ok : Bool) (st : StreamTx) :
    StreamTx × Bool × Option (List Nat) :=
  if st.txBuffer = [] then (st, true, none)
  else
    let buf := if st.txBuffer.length + 3 > maxP then st.txBuffer.take (maxP - 3)
               else st.txBuffer
    let pkt := ident :: ((st.sentPacketId >>> 8) &&& 0xFF) ::
               (st.sentPacketId &&& 0xFF) :: buf
    if ok then (⟨[], (st.sentPacketId + 1) % 65536⟩, true, some pkt)
    else (⟨buf, st.sentPacketId⟩, false, some pkt)

/-- One externally observable transmit event: `wr b` appends a byte to
the tx buffer (the body of `write(uint8_t)`), `fl ok` is one
`sendPacket` attempt whose mesh send reports `ok` (`flush()` and the
automatic flushes inside `write` are both such attempts). -/
inductive TxOp where
  | wr (b : Nat)
  | fl (ok : Bool)

/-- Run a list of transmit events from a given state, collecting the
packets the mesh accepted (a failed `sendPacket` hands the packet to
the mesh but the mesh drops it and the state keeps the data for
retry). -/
def runTx (maxP ident : Nat) : StreamTx → List TxOp → StreamTx × List (List Nat)
  | st, [] => (st, [])
  | st, TxOp.wr b :: ops => runTx maxP ident ⟨st.txBuffer ++ [b], st.sentPacketId⟩ ops
  | st, TxOp.fl ok :: ops =>
    let r := sendPacket maxP ident ok st
    let rest := runTx maxP ident r.1 ops
    match r.2.1, r.2.2 with
    | true, some pkt => (rest.1, pkt :: rest.2)
    | _, _ => rest

/-- `MeshtasticZModemStream::reset()`: clears both buffers and zeroes
both packet ids; the transmit-side projection. -/
def resetTx : StreamTx := ⟨[], 0⟩

/-- The alternating schedule "write one byte, then flush with the mesh
accepting": `sched n` makes `n` successful one-byte datagrams. -/
def sched : Nat → List TxOp
  | 0 => []
  | n + 1 => TxOp.wr 5 :: TxOp.fl true :: sched n


/-! ## Supporting lemmas for the CRC development -/

theorem xor_mod_two_pow_16 (x : Nat) :
    (x ^^^ 0x1021) % 65536 = (x % 65536) ^^^ 0x1021 := by
  rw [show (65536 : Nat) = 2 ^ 16 by norm_num]
  apply Nat.eq_of_testBit_eq
  intro i
  rw [Nat.testBit_mod_two_pow, Nat.testBit_xor, Nat.testBit_xor, Nat.testBit_mod_two_pow]
  by_cases hi : i < 16
  · simp [hi]
  · have hx : Nat.testBit 0x1021 i = false :=
      Nat.testBit_lt_two_pow (lt_of_lt_of_le (by norm_num)
        (Nat.pow_le_pow_right (by norm_num) (Nat.le_of_not_lt hi)))
    simp [hi, hx]

theorem crcStep_eq_spec (cr x : Nat) : crcStep cr x = crcStepSpec cr := by
  unfold crcStep crcStepSpec
  have hshift : cr <<< 1 = cr * 2 := by rw [Nat.shiftLeft_eq, pow_one]
  cases hb : Nat.testBit cr 15 with
  | true =>
      have hand : cr &&& 0x8000 ≠ 0 := by
        rw [show (0x8000 : Nat) = 2 ^ 15 by norm_num, Nat.and_two_pow, hb]
        simp
      rw [if_pos hand, if_pos rfl, hshift, xor_mod_two_pow_16]
  | false =>
      have hand : ¬ cr &&& 0x8000 ≠ 0 := by
        rw [show (0x8000 : Nat) = 2 ^ 15 by norm_num, Nat.and_two_pow, hb]
        simp
      rw [if_neg hand, if_neg (by simp), hshift]

theorem foldl_crcStep_eq_iterate (n a : Nat) :
    (List.range n).foldl crcStep a = crcStepSpec^[n] a := by
  induction n generalizing a with
  | zero => rfl
  | succ m ih =>
      rw [List.range_succ, List.foldl_append, ih, List.foldl_cons, List.foldl_nil,
        crcStep_eq_spec]
      exact (Function.iterate_succ_apply' crcStepSpec m a).symm

theorem crcStep_lt (cr x : Nat) : crcStep cr x < 65536 := by
  unfold crcStep
  split <;> exact Nat.mod_lt _ (by norm_num)

theorem foldl_crcStep_lt (l : List Nat) (a : Nat) (h : a < 65536) :
    l.foldl crcStep a < 65536 := by
  induction l generalizing a with
  | nil => simpa using h
  | cons b t ih => rw [List.foldl_cons]; exact ih _ (crcStep_lt a b)

/-- `updcrc` always produces a 16-bit value. -/
theorem updcrc_lt (c crc : Nat) : updcrc c crc < 65536 :=
  foldl_crcStep_lt _ _ (Nat.mod_lt _ (by norm_num))

theorem foldl_updcrc_lt (t : List Nat) (a : Nat) (h : a < 65536) :
    t.foldl (fun cr b => updcrc b cr) a < 65536 := by
  induction t generalizing a with
  | nil => simpa using h
  | cons b t ih => rw [List.foldl_cons]; exact ih _ (updcrc_lt b a)

/-- `crc16` always produces a 16-bit value. -/
theorem crc16_lt (l : List Nat) : crc16 l < 65536 :=
  foldl_updcrc_lt l 0 (by norm_num)

/-- Claim C6: for every byte `b` and initial value `crc`, `_updcrc`
computes exactly the CRC-16/XMODEM step described in the specification
(xor `b << 8` into `crc`, then eight shift-and-xor-0x1021 iterations in
16-bit arithmetic), and the CRC of a byte string is the fold of this
update from initial value 0 with no reflection and no final xor. -/
theorem updcrc_is_xmodem :
    (∀ b crc, updcrc b crc = updcrcSpec b crc) ∧
    (∀ l, crc16 l = crc16Spec l) := by
  have hpt : ∀ b crc, updcrc b crc = updcrcSpec b crc := by
    intro b crc
    unfold updcrc updcrcSpec
    rw [foldl_crcStep_eq_iterate, Nat.shiftLeft_eq]
  refine ⟨hpt, fun l => ?_⟩
  unfold crc16 crc16Spec
  have hfun : (fun cr b => updcrc b cr) = fun cr b => updcrcSpec b cr := by
    funext cr b
    exact hpt b cr
  rw [hfun]

theorem escapeNeeded_iff (b : Nat) :
    escapeNeeded b = true ↔
      (b = ZDLE ∨ b = 0x10 ∨ b = 0x11 ∨ b = 0x13 ∨ b = 0x0D ∨ b = 0x8D) := by
  unfold escapeNeeded
  simp only [Bool.or_eq_true, beq_iff_eq]
  tauto

theorem foldl_subpacketStep (data : List Nat) (out : List Nat) (c : Nat) :
    data.foldl subpacketStep (out, c) =
      (out ++ data.flatMap escByteSpec, data.foldl (fun cr b => updcrc b cr) c) := by
  induction data generalizing out c with
  | nil => simp
  | cons b t ih =>
      rw [List.foldl_cons, List.foldl_cons]
      by_cases hb : escapeNeeded b = true
      · have hstep : subpacketStep (out, c) b = (out ++ [ZDLE, b ^^^ 0x40], updcrc b c) := by
          unfold subpacketStep
          rw [if_pos hb]
        rw [hstep, ih, List.flatMap_cons]
        have hesc : escByteSpec b = [ZDLE, b ^^^ 0x40] := by
          unfold escByteSpec
          rw [if_pos ((escapeNeeded_iff b).mp hb)]
        rw [hesc]
        simp
      · have hstep : subpacketStep (out, c) b = (out ++ [b], updcrc b c) := by
          unfold subpacketStep
          rw [if_neg hb]
        rw [hstep, ih, List.flatMap_cons]
        have hesc : escByteSpec b = [b] := by
          unfold escByteSpec
          rw [if_neg (fun hc => hb ((escapeNeeded_iff b).mpr hc))]
        rw [hesc]
        simp

theorem crc16_append_one (data : List Nat) (t : Nat) :
    crc16 (data ++ [t]) = updcrc t (crc16 data) := by
  unfold crc16
  rw [List.foldl_append, List.foldl_cons, List.foldl_nil]

theorem hi_byte_eq (c : Nat) (h : c < 65536) : (c >>> 8) &&& 0xFF = c / 256 := by
  have h1 : c >>> 8 = c / 256 := by
    rw [Nat.shiftRight_eq_div_pow]
  rw [h1, show (0xFF : Nat) = 2 ^ 8 - 1 by norm_num, Nat.and_pow_two_sub_one_eq_mod]
  have h2 : c / 256 < 2 ^ 8 := by
    have h3 : c / 256 < 256 := by omega
    simpa using h3
  exact Nat.mod_eq_of_lt h2

theorem lo_byte_eq (c : Nat) : c &&& 0xFF = c % 256 := by
  rw [show (0xFF : Nat) = 2 ^ 8 - 1 by norm_num, Nat.and_pow_two_sub_one_eq_mod]

/-- Claim C7: for every input byte string and end-of-frame flag,
`_sendDataSubpacket` emits exactly: each byte of
{ZDLE, 0x10, 0x11, 0x13, 0x0D, 0x8D} as the pair (ZDLE, byte xor 0x40)
and every other byte unchanged, then ZDLE and ZCRCE (end of frame) or
ZCRCG, then the CRC-16 high byte and low byte, the CRC being computed
over the original pre-escape data bytes plus the terminator byte. -/
theorem sendDataSubpacket_correct (data : List Nat) (endFrame : Bool) :
    sendDataSubpacket data endFrame = subpacketSpec data endFrame := by
  unfold sendDataSubpacket subpacketSpec
  dsimp only
  rw [foldl_subpacketStep, crc16_append_one]
  unfold crc16
  rw [hi_byte_eq _ (updcrc_lt _ _), lo_byte_eq]
  simp

/-! ## Claim C3: HEX header CRC validation -/

/-- Claim C3 (amended): `_readHexHeader` reads and discards the four CRC
hex characters without validating them: for every well-formed header
prefix, every choice of the four CRC characters and of the two trailing
bytes yields the same successfully decoded header — the result does not
depend on the CRC characters at all, so a header whose CRC characters
do not match the CRC of the decoded bytes is still returned as valid. -/
theorem readHexHeader_ignores_crc
    (t1 t2 f1 f2 f3 f4 f5 f6 f7 f8 c1 c2 c3 c4 x1 x2 : Nat) (rest : List Nat) :
    readHexHeader (42 :: 42 :: 24 :: 66 :: t1 :: t2 :: f1 :: f2 :: f3 :: f4 :: f5
        :: f6 :: f7 :: f8 :: c1 :: c2 :: c3 :: c4 :: x1 :: x2 :: rest) =
      some ((pairVal t1 t2,
        [pairVal f1 f2, pairVal f3 f4, pairVal f5 f6, pairVal f7 f8]), rest) := by
  unfold readHexHeader
  rw [if_neg (by simp only [List.length_cons]; omega)]

set_option maxRecDepth 8000 in
/-- Claim C3 counterexample: the HEX header stream `**`,ZDLE,`B`,
`"01"` (type ZRINIT), `"00000000"` (flags), CRC characters `"0000"`,
CR, LF decodes to type 1 with zero flags even though the CRC-16 of the
five decoded bytes is not 0: `_readHexHeader` accepts a header whose
CRC characters do not match. -/
theorem readHexHeader_bad_crc_accepted :
    readHexHeader [42, 42, 24, 66, 48, 49, 48, 48, 48, 48, 48, 48, 48, 48,
        48, 48, 48, 48, 13, 10] = some ((1, [0, 0, 0, 0]), []) ∧
    crc16 [1, 0, 0, 0, 0] ≠ pairVal 48 48 * 256 + pairVal 48 48 :=
  ⟨rfl, by decide⟩

/-! ## Claim C1: receiver subpacket handling in `RSTATE_READ_ZDATA` -/

/-- Claim C1 (documenting the code bug): the bytes
`[0x41, ZDLE, ZCRCE, 0xDE, 0xAD]` form a data subpacket whose CRC bytes
`0xDE 0xAD` do NOT match the CRC-16 of the data plus terminator, yet the
`RSTATE_READ_ZDATA` branch writes all five raw bytes (data, escape,
terminator and CRC bytes alike) to the file and advances
`_bytesTransferred` by 5: the code performs no subpacket parsing, no
CRC verification and sends no ZRPOS on corruption. -/
theorem readZdata_writes_raw_bytes :
    handleReadZdata [0x41, 0x18, 0x45, 0xDE, 0xAD] [] 0 =
      ([0x41, 0x18, 0x45, 0xDE, 0xAD], 5) ∧
    crc16 [0x41, 0x45] ≠ 0xDE * 256 + 0xAD :=
  ⟨rfl, by decide⟩

/-! ## Claim C8: idempotence of `abort` -/

/-- Claim C8 (amended): `abort` is idempotent on the session state —
after one or two calls the state is `STATE_ERROR` — but it is NOT
idempotent on the output: each call, the second included, writes the
eight-byte `ZDLE,ZCAN` cancel sequence to the stream, because the
write is not guarded by the current state. -/
theorem abortEngine_idempotent_state (s : ZState) (out : List Nat) :
    (abortEngine (s, out)).1 = ZState.error ∧
    (abortEngine (abortEngine (s, out))).1 = ZState.error ∧
    (abortEngine (abortEngine (s, out))).2 = out ++ (canSeq ++ canSeq) := by
  refine ⟨rfl, rfl, ?_⟩
  simp [abortEngine]

/-- Claim C8 counterexample: aborting twice from mid-transfer with an
empty output trace leaves sixteen bytes — two full cancel sequences —
on the output; the claim says the second call emits nothing. -/
theorem abortEngine_double_emit :
    (abortEngine (abortEngine (ZState.sendZdata, []))).2 = canSeq ++ canSeq ∧
    (canSeq ++ canSeq).length = 16 ∧ canSeq.length = 8 := by
  refine ⟨by simp [abortEngine], by decide, by decide⟩

/-! ## Claim C9: timeout gate of `loop` -/

/-- Claim C9: for every non-terminal state (not Idle, Complete or
Error), if the elapsed time since `_lastActivity` (32-bit unsigned
subtraction) exceeds `_timeoutMs`, the next `loop()` call transitions
the session to `STATE_ERROR` and returns -1, whatever the sender or
receiver handler would have done — the handler is never reached. -/
theorem engineLoop_timeout_to_error (handler : EngineCore → EngineCore)
    (now : Nat) (e : EngineCore)
    (h1 : e.state ≠ ZState.idle) (h2 : e.state ≠ ZState.complete)
    (h3 : e.state ≠ ZState.error)
    (ht : e.timeoutMs < (now - e.lastActivity) % 4294967296) :
    (engineLoop handler now e).1.state = ZState.error ∧
    (engineLoop handler now e).2 = -1 := by
  unfold engineLoop
  rw [if_neg (by simp [h1, h2, h3]), if_pos ht]
  exact ⟨rfl, rfl⟩

/-- Witness for C9: a sender in `STATE_SEND_ZDATA` with the default
30,000 ms timeout, last activity at time 0, polled at time 30,001. -/
theorem engineLoop_timeout_to_error_witness :
    (engineLoop id 30001 ⟨ZState.sendZdata, 0, 30000⟩).1.state = ZState.error ∧
    (engineLoop id 30001 ⟨ZState.sendZdata, 0, 30000⟩).2 = -1 :=
  engineLoop_timeout_to_error id 30001 ⟨ZState.sendZdata, 0, 30000⟩
    (by decide) (by decide) (by decide) (by decide)

/-! ## Claim C4: failed mesh send preserves the transmit state -/

/-- Claim C4 (amended): for every `sendPacket` attempt with data
buffered whose length plus the 3-byte header fits within the maximum
packet size, a mesh send failure leaves the tx buffer contents, the tx
buffer length and the outgoing sequence number unchanged, and every
subsequent attempt hands the mesh exactly the same bytes under exactly
the same sequence number.  (Without the fit condition the code first
truncates the buffer to `maxPacketSize - 3` bytes, and that truncation
persists across the failure.) -/
theorem sendPacket_fail_preserves_state (maxP ident : Nat) (st : StreamTx)
    (hne : st.txBuffer ≠ []) (hfit : st.txBuffer.length + 3 ≤ maxP) :
    (sendPacket maxP ident false st).1 = st ∧
    (sendPacket maxP ident false st).2.1 = false ∧
    ∀ ok, (sendPacket maxP ident ok st).2.2 =
      some (ident :: ((st.sentPacketId >>> 8) &&& 0xFF) ::
        (st.sentPacketId &&& 0xFF) :: st.txBuffer) := by
  have hnotr : ¬ st.txBuffer.length + 3 > maxP := by omega
  refine ⟨?_, ?_, fun ok => ?_⟩
  · simp [sendPacket, hne, hnotr]
  · simp [sendPacket, hne, hnotr]
  · cases ok <;> simp [sendPacket, hne, hnotr]

/-- Witness for C4: two bytes buffered under sequence number 7 with the
default 230-byte maximum packet size; the failed send changes nothing
and every retry emits the same packet. -/
theorem sendPacket_fail_preserves_state_witness :
    (sendPacket 230 255 false ⟨[1, 2], 7⟩).1 = ⟨[1, 2], 7⟩ ∧
    (sendPacket 230 255 false ⟨[1, 2], 7⟩).2.1 = false ∧
    ∀ ok, (sendPacket 230 255 ok ⟨[1, 2], 7⟩).2.2 =
      some (255 :: ((7 >>> 8) &&& 0xFF) :: (7 &&& 0xFF) :: [1, 2]) :=
  sendPacket_fail_preserves_state 230 255 ⟨[1, 2], 7⟩ (by decide) (by decide)

set_option maxRecDepth 8000 in
/-- Claim C4 counterexample: with the default 230-byte maximum packet
size and 228 bytes buffered (reachable: an automatic flush at 227 bytes
fails, `write` still buffers the next byte and retriggers the flush),
a `sendPacket` whose mesh send FAILS nevertheless changes the tx buffer
length from 228 to 227 — the truncation performed before the send
persists, so the next attempt does not emit the same bytes. -/
theorem sendPacket_truncation_changes_buffer :
    (sendPacket 230 255 false ⟨List.replicate 228 5, 0⟩).2.1 = false ∧
    (sendPacket 230 255 false ⟨List.replicate 228 5, 0⟩).1.txBuffer.length = 227 ∧
    (⟨List.replicate 228 5, 0⟩ : StreamTx).txBuffer.length = 228 := by
  refine ⟨?_, ?_, by simp⟩
  · simp [sendPacket]
  · simp [sendPacket]

/-! ## Claim C10: oversized in-sequence frame is discarded safely -/

/-- Claim C10: when the rx buffer is drained and an in-sequence frame
arrives whose data portion exceeds the rx buffer capacity, `available`
writes nothing into the buffer (the buffer ends empty), leaves the read
index and the expected sequence number unchanged, and reports zero
bytes available: the oversized frame is treated like a lost frame, not
partially consumed. -/
theorem processPacket_oversize_safe (ident : Nat) (st : RxState)
    (p1 p2 : Nat) (data : List Nat)
    (hdrained : st.rxBuffer.length ≤ st.rxBufferIndex)
    (hseq : p1 * 256 + p2 = st.expectedPacketId)
    (hover : AKZ_STREAM_RX_BUFFER_SIZE < data.length) :
    (processPacket ident st (ident :: p1 :: p2 :: data)).1.rxBuffer = [] ∧
    (processPacket ident st (ident :: p1 :: p2 :: data)).1.rxBufferIndex =
      st.rxBufferIndex ∧
    (processPacket ident st (ident :: p1 :: p2 :: data)).1.expectedPacketId =
      st.expectedPacketId ∧
    (processPacket ident st (ident :: p1 :: p2 :: data)).2 = 0 := by
  have hno : ¬ st.rxBufferIndex < st.rxBuffer.length := Nat.not_lt.mpr hdrained
  have hres : processPacket ident st (ident :: p1 :: p2 :: data) =
      ({ st with rxBuffer := [] }, 0) := by
    simp [processPacket, hno, hseq, hover]
  rw [hres]
  exact ⟨rfl, rfl, rfl, rfl⟩

set_option maxRecDepth 8000 in
/-- Witness for C10: a fresh stream (expected sequence 0) receiving an
in-sequence frame with a 257-byte data portion, one more than the
256-byte rx buffer. -/
theorem processPacket_oversize_safe_witness :
    (processPacket 255 ⟨[], 0, 0⟩ (255 :: 0 :: 0 :: List.replicate 257 1)).1.rxBuffer
        = [] ∧
    (processPacket 255 ⟨[], 0, 0⟩ (255 :: 0 :: 0 :: List.replicate 257 1)).1.rxBufferIndex
        = 0 ∧
    (processPacket 255 ⟨[], 0, 0⟩ (255 :: 0 :: 0 :: List.replicate 257 1)).1.expectedPacketId
        = 0 ∧
    (processPacket 255 ⟨[], 0, 0⟩ (255 :: 0 :: 0 :: List.replicate 257 1)).2 = 0 :=
  processPacket_oversize_safe 255 ⟨[], 0, 0⟩ 0 0 (List.replicate 257 1)
    (by decide) (by decide) (by simp [AKZ_STREAM_RX_BUFFER_SIZE])

/-! ## Claim C2: acceptance condition of the receive path -/

/-- Claim C2 (amended): with the rx buffer drained, an incoming payload
is accepted — bytes copied into the rx buffer, read index reset,
expected sequence incremented by exactly one (16-bit) — if and only if
it unframes successfully (length at least 3, identifier byte matches),
its big-endian sequence equals the expected sequence, AND its data
portion fits the 256-byte rx buffer.  Any frame whose sequence differs
from the expected one (duplicate or gap) is dropped with the expected
sequence unchanged and zero bytes reported. -/
theorem processPacket_accept_iff (ident : Nat) (st : RxState) (payload : List Nat)
    (hdrained : st.rxBuffer.length ≤ st.rxBufferIndex) :
    (((processPacket ident st payload).1.expectedPacketId =
        (st.expectedPacketId + 1) % 65536 ∧
      (processPacket ident st payload).1.rxBuffer = payload.drop 3 ∧
      (processPacket ident st payload).1.rxBufferIndex = 0)
     ↔ (3 ≤ payload.length ∧ payload.head? = some ident ∧
        seqOf payload = st.expectedPacketId ∧
        payload.length ≤ AKZ_STREAM_RX_BUFFER_SIZE + 3)) ∧
    (seqOf payload ≠ st.expectedPacketId →
      (processPacket ident st payload).1.expectedPacketId = st.expectedPacketId ∧
      (processPacket ident st payload).2 = 0) := by
  have hno : ¬ st.rxBufferIndex < st.rxBuffer.length := Nat.not_lt.mpr hdrained
  rcases payload with _ | ⟨p0, _ | ⟨p1, _ | ⟨p2, data⟩⟩⟩
  · have hres : processPacket ident st [] = (st, 0) := by
      simp [processPacket, hno]
    rw [hres]
    exact ⟨⟨fun h => absurd h.1 (by dsimp only; omega), fun h => absurd h.1 (by simp)⟩,
      fun _ => ⟨rfl, rfl⟩⟩
  · have hres : processPacket ident st [p0] = (st, 0) := by
      simp [processPacket, hno]
    rw [hres]
    exact ⟨⟨fun h => absurd h.1 (by dsimp only; omega), fun h => absurd h.1 (by simp)⟩,
      fun _ => ⟨rfl, rfl⟩⟩
  · have hres : processPacket ident st [p0, p1] = (st, 0) := by
      simp [processPacket, hno]
    rw [hres]
    exact ⟨⟨fun h => absurd h.1 (by dsimp only; omega), fun h => absurd h.1 (by simp)⟩,
      fun _ => ⟨rfl, rfl⟩⟩
  · by_cases hid : p0 = ident
    · by_cases hseq : p1 * 256 + p2 = st.expectedPacketId
      · by_cases hsize : data.length > AKZ_STREAM_RX_BUFFER_SIZE
        · have hres : processPacket ident st (p0 :: p1 :: p2 :: data) =
              ({ st with rxBuffer := [] }, 0) := by
            simp [processPacket, hno, hid, hseq, hsize]
          rw [hres]
          refine ⟨⟨fun h => absurd h.1 (by dsimp only; omega), fun h => ?_⟩,
            fun hh => absurd hseq hh⟩
          exfalso
          have hl := h.2.2.2
          simp only [List.length_cons] at hl
          unfold AKZ_STREAM_RX_BUFFER_SIZE at hsize hl
          omega
        · have hres : processPacket ident st (p0 :: p1 :: p2 :: data) =
              ({ rxBuffer := data, rxBufferIndex := 0,
                 expectedPacketId := (st.expectedPacketId + 1) % 65536 },
               data.length) := by
            simp [processPacket, hno, hid, hseq, hsize]
          rw [hres]
          constructor
          · constructor
            · intro _
              refine ⟨by simp, by simp [hid], hseq, ?_⟩
              simp only [List.length_cons]
              unfold AKZ_STREAM_RX_BUFFER_SIZE at hsize ⊢
              omega
            · intro _
              exact ⟨rfl, rfl, rfl⟩
          · intro hh
            exact absurd hseq hh
      · by_cases hlt : p1 * 256 + p2 < st.expectedPacketId
        · have hres : processPacket ident st (p0 :: p1 :: p2 :: data) = (st, 0) := by
            simp [processPacket, hno, hid, hseq, hlt]
          rw [hres]
          exact ⟨⟨fun h => absurd h.1 (by dsimp only; omega), fun h => absurd h.2.2.1 hseq⟩,
            fun _ => ⟨rfl, rfl⟩⟩
        · have hres : processPacket ident st (p0 :: p1 :: p2 :: data) =
              ({ st with rxBuffer := [], rxBufferIndex := 0 }, 0) := by
            simp [processPacket, hno, hid, hseq, hlt]
          rw [hres]
          exact ⟨⟨fun h => absurd h.1 (by dsimp only; omega), fun h => absurd h.2.2.1 hseq⟩,
            fun _ => ⟨rfl, rfl⟩⟩
    · have hres : processPacket ident st (p0 :: p1 :: p2 :: data) = (st, 0) := by
        simp [processPacket, hno, hid]
      rw [hres]
      exact ⟨⟨fun h => absurd h.1 (by dsimp only; omega),
        fun h => absurd (Option.some.inj h.2.1) hid⟩, fun _ => ⟨rfl, rfl⟩⟩

/-- Witness for C2: a fresh stream accepting frame
`[255, 0, 0, 9]` (identifier 255, sequence 0, one data byte): the
acceptance side of the equivalence holds concretely. -/
theorem processPacket_accept_iff_witness :
    (processPacket 255 ⟨[], 0, 0⟩ [255, 0, 0, 9]).1.expectedPacketId = (0 + 1) % 65536 ∧
    (processPacket 255 ⟨[], 0, 0⟩ [255, 0, 0, 9]).1.rxBuffer = [9] ∧
    (processPacket 255 ⟨[], 0, 0⟩ [255, 0, 0, 9]).1.rxBufferIndex = 0 := by
  have h := (processPacket_accept_iff 255 ⟨[], 0, 0⟩ [255, 0, 0, 9]
    (by decide)).1.mpr ⟨by decide, by decide, by decide, by decide⟩
  simpa using h

set_option maxRecDepth 8000 in
/-- Claim C2 counterexample: the claim's equivalence fails as stated.
The frame `255 :: 0 :: 0 :: (300 bytes)` unframes successfully (length
at least 3, identifier 255 matches) and its sequence 0 equals the
expected sequence of a fresh stream, yet it is NOT accepted: its data
portion exceeds the 256-byte rx buffer, so the expected sequence stays
0 instead of advancing to 1 and nothing is copied in. -/
theorem processPacket_oversize_refutes_iff :
    (3 ≤ (255 :: 0 :: 0 :: List.replicate 300 7 : List Nat).length ∧
     (255 :: 0 :: 0 :: List.replicate 300 7 : List Nat).head? = some 255 ∧
     seqOf (255 :: 0 :: 0 :: List.replicate 300 7) = 0) ∧
    (processPacket 255 ⟨[], 0, 0⟩ (255 :: 0 :: 0 :: List.replicate 300 7)).1.expectedPacketId
        = 0 ∧
    (processPacket 255 ⟨[], 0, 0⟩ (255 :: 0 :: 0 :: List.replicate 300 7)).1.rxBuffer
        = [] := by
  refine ⟨⟨?_, rfl, rfl⟩, ?_, ?_⟩
  · simp
  · have hres : processPacket 255 ⟨[], 0, 0⟩ (255 :: 0 :: 0 :: List.replicate 300 7) =
        ({ rxBuffer := [], rxBufferIndex := 0, expectedPacketId := 0 }, 0) := by
      simp [processPacket, AKZ_STREAM_RX_BUFFER_SIZE]
    rw [hres]
  · have hres : processPacket 255 ⟨[], 0, 0⟩ (255 :: 0 :: 0 :: List.replicate 300 7) =
        ({ rxBuffer := [], rxBufferIndex := 0, expectedPacketId := 0 }, 0) := by
      simp [processPacket, AKZ_STREAM_RX_BUFFER_SIZE]
    rw [hres]

/-! ## Claim C5: transmit sequence numbers -/

theorem seqOf_pkt (ident s : Nat) (buf : List Nat) (h : s < 65536) :
    seqOf (ident :: ((s >>> 8) &&& 0xFF) :: (s &&& 0xFF) :: buf) = s := by
  show ((s >>> 8) &&& 0xFF) * 256 + (s &&& 0xFF) = s
  rw [hi_byte_eq s h, lo_byte_eq]
  omega

/-- Sequence numbers of the packets the mesh accepted during any event
run: starting from a 16-bit counter `s`, they are `s, s+1, s+2, …`
reduced mod 2^16, in order. -/
theorem runTx_seqs (maxP ident : Nat) (ops : List TxOp) :
    ∀ st : StreamTx, st.sentPacketId < 65536 →
      (runTx maxP ident st ops).2.map seqOf =
        (List.range (runTx maxP ident st ops).2.length).map
          (fun k => (st.sentPacketId + k) % 65536) := by
  induction ops with
  | nil =>
      intro st h
      rfl
  | cons op ops ih =>
      intro st h
      cases op with
      | wr b =>
          have hstep : runTx maxP ident st (TxOp.wr b :: ops) =
              runTx maxP ident ⟨st.txBuffer ++ [b], st.sentPacketId⟩ ops := rfl
          rw [hstep]
          exact ih ⟨st.txBuffer ++ [b], st.sentPacketId⟩ h
      | fl ok =>
          by_cases hbe : st.txBuffer = []
          · have hstep : runTx maxP ident st (TxOp.fl ok :: ops) =
                runTx maxP ident st ops := by
              simp [runTx, sendPacket, hbe]
            rw [hstep]
            exact ih st h
          · cases ok with
            | true =>
                have h2 : (st.sentPacketId + 1) % 65536 < 65536 :=
                  Nat.mod_lt _ (by norm_num)
                have hihs := ih ⟨[], (st.sentPacketId + 1) % 65536⟩ h2
                have hsp : sendPacket maxP ident true st =
                    (⟨[], (st.sentPacketId + 1) % 65536⟩, true,
                     some (ident :: ((st.sentPacketId >>> 8) &&& 0xFF) ::
                       (st.sentPacketId &&& 0xFF) ::
                       (if st.txBuffer.length + 3 > maxP then st.txBuffer.take (maxP - 3)
                        else st.txBuffer))) := by
                  simp [sendPacket, hbe]
                have hrun : runTx maxP ident st (TxOp.fl true :: ops) =
                    ((runTx maxP ident ⟨[], (st.sentPacketId + 1) % 65536⟩ ops).1,
                     (ident :: ((st.sentPacketId >>> 8) &&& 0xFF) ::
                      (st.sentPacketId &&& 0xFF) ::
                      (if st.txBuffer.length + 3 > maxP then st.txBuffer.take (maxP - 3)
                       else st.txBuffer)) ::
                     (runTx maxP ident ⟨[], (st.sentPacketId + 1) % 65536⟩ ops).2) := by
                  simp only [runTx, hsp]
                rw [hrun]
                simp only [List.map_cons, List.length_cons]
                rw [seqOf_pkt _ _ _ h, hihs, List.range_succ_eq_map]
                simp only [List.map_cons, List.map_map]
                congr 1
                · omega
                · apply List.map_congr_left
                  intro k _
                  simp only [Function.comp_apply]
                  omega
            | false =>
                have hsp : sendPacket maxP ident false st =
                    (⟨(if st.txBuffer.length + 3 > maxP then st.txBuffer.take (maxP - 3)
                       else st.txBuffer), st.sentPacketId⟩, false,
                     some (ident :: ((st.sentPacketId >>> 8) &&& 0xFF) ::
                       (st.sentPacketId &&& 0xFF) ::
                       (if st.txBuffer.length + 3 > maxP then st.txBuffer.take (maxP - 3)
                        else st.txBuffer))) := by
                  simp [sendPacket, hbe]
                have hrun : runTx maxP ident st (TxOp.fl false :: ops) =
                    runTx maxP ident
                      ⟨(if st.txBuffer.length + 3 > maxP then st.txBuffer.take (maxP - 3)
                        else st.txBuffer), st.sentPacketId⟩ ops := by
                  simp only [runTx, hsp]
                rw [hrun]
                exact ih _ h

/-- Claim C5 (amended): over any single transfer (from stream reset),
for every schedule of buffered writes and flush attempts with arbitrary
mesh outcomes, the sequence numbers of the datagrams the mesh accepted
are exactly `0, 1, 2, …` reduced modulo 2^16, in order: no datagram is
skipped or repeated within the first 65536 emissions, failed sends do
not advance the counter, and nothing in a transfer (ZRPOS handling
included, which only moves the file position) resets it — but the
16-bit counter wraps, so sequence numbers repeat from the 65537th
accepted datagram on. -/
theorem runTx_seq_monotone_mod (maxP ident : Nat) (ops : List TxOp) :
    (runTx maxP ident resetTx ops).2.map seqOf =
      (List.range (runTx maxP ident resetTx ops).2.length).map (fun k => k % 65536) := by
  have h := runTx_seqs maxP ident ops resetTx (by norm_num [resetTx])
  simpa [resetTx] using h

theorem runTx_sched_len (n : Nat) :
    ∀ s : Nat, (runTx 230 255 ⟨[], s⟩ (sched n)).2.length = n := by
  induction n with
  | zero =>
      intro s
      rfl
  | succ m ih =>
      intro s
      have hsp : sendPacket 230 255 true ⟨[5], s⟩ =
          (⟨[], (s + 1) % 65536⟩, true,
           some (255 :: ((s >>> 8) &&& 0xFF) :: (s &&& 0xFF) :: [5])) := by
        simp [sendPacket]
      have hrun : runTx 230 255 ⟨[], s⟩ (sched (m + 1)) =
          ((runTx 230 255 ⟨[], (s + 1) % 65536⟩ (sched m)).1,
           (255 :: ((s >>> 8) &&& 0xFF) :: (s &&& 0xFF) :: [5]) ::
           (runTx 230 255 ⟨[], (s + 1) % 65536⟩ (sched m)).2) := by
        rw [show sched (m + 1) = TxOp.wr 5 :: TxOp.fl true :: sched m from rfl]
        simp only [runTx, List.nil_append, hsp]
      rw [hrun]
      simp only [List.length_cons, ih]

/-- Claim C5 counterexample: the claim's "no repeats" fails as stated.
After 65537 one-byte datagrams all accepted by the mesh, starting from
a fresh (reset) stream, the datagram at position 65536 carries the
same sequence number, 0, as the datagram at position 0: the `uint16_t`
counter has wrapped. -/
theorem runTx_seq_wraps :
    ((runTx 230 255 resetTx (sched 65537)).2.map seqOf)[0]? = some 0 ∧
    ((runTx 230 255 resetTx (sched 65537)).2.map seqOf)[65536]? = some 0 ∧
    (0 : Nat) ≠ 65536 := by
  have hs := runTx_seqs 230 255 (sched 65537) resetTx (by norm_num [resetTx])
  have hlen : (runTx 230 255 resetTx (sched 65537)).2.length = 65537 :=
    runTx_sched_len 65537 0
  rw [hlen] at hs
  rw [hs]
  refine ⟨?_, ?_, by norm_num⟩
  · rw [List.getElem?_map, List.getElem?_range (by norm_num)]
    rfl
  · rw [List.getElem?_map, List.getElem?_range (by norm_num)]
    rfl
